import Mathlib

/-!
Verification development for the speedRweb analysis service
(`analysis-service/analyzer.py` and `analysis-service/app.py`).

The numeric pipeline is embedded shallowly over exact rationals.  OpenCV,
scikit-image and MediaPipe computations (optical flow fields, contour
detection, landmark inference) are external collaborators of the analyzed
code: they are represented as explicit parameters (an abstract per-pair
flow-magnitude function, optional detector pixel lengths, a pose record
stream).  Every arithmetic step downstream of those collaborators is
translated directly from the Python source.  Python `round` (banker
rounding, half to even) is modelled exactly on rationals.
-/

attribute [local semireducible] Rat.add Rat.mul Rat.inv Rat.sub

namespace SpeedRWeb

/-- Reference dimensions from `analyzer.py` lines 17-22. -/
def STICK_LENGTH_CM : ℚ := 155

/-- Average ice hockey player height, `analyzer.py` line 19. -/
def PLAYER_HEIGHT_CM : ℚ := 183

/-- Average shoulder-to-wrist distance, `analyzer.py` line 20. -/
def ARM_LENGTH_CM : ℚ := 65

/-- Average shoulder width, `analyzer.py` line 21. -/
def SHOULDER_WIDTH_CM : ℚ := 45

/-- Fallback: stick assumed to span 35 percent of frame width, line 22. -/
def STICK_WIDTH_RATIO_FALLBACK : ℚ := 35 / 100

/-- Round a rational to the nearest integer, half to even, as Python round. -/
def roundHalfEven (q : ℚ) : ℤ :=
  let f := ⌊q⌋
  let r := q - f
  if r < 1 / 2 then f
  else if 1 / 2 < r then f + 1
  else if f % 2 = 0 then f else f + 1

/-- Python round(x, 1). -/
def round1 (q : ℚ) : ℚ := (roundHalfEven (q * 10) : ℚ) / 10

/-- Python round(x, 2). -/
def round2 (q : ℚ) : ℚ := (roundHalfEven (q * 100) : ℚ) / 100

/-- Python `x or d` for an optional float `x`: `None` and `0` are falsy. -/
def pyOrQ (x : Option ℚ) (d : ℚ) : ℚ :=
  match x with
  | none => d
  | some v => if v = 0 then d else v

/-- `np.median`: sort ascending; odd length takes the middle element, even
length averages the two middle elements. -/
def npMedian (xs : List ℚ) : ℚ :=
  let sorted := List.insertionSort (· ≤ ·) xs
  let n := sorted.length
  if n % 2 = 1 then sorted.getD (n / 2) 0
  else (sorted.getD (n / 2 - 1) 0 + sorted.getD (n / 2) 0) / 2

/-- One calibration estimate `(method name, cm_per_pixel, trust weight)`,
as appended by `_auto_calibrate` (`analyzer.py` lines 429-469). -/
structure Estimate where
  method : String
  cm : ℚ
  weight : ℚ
deriving DecidableEq

instance : DecidableRel (fun a b : Estimate => b.weight ≤ a.weight) :=
  fun a b => inferInstanceAs (Decidable (b.weight ≤ a.weight))

/-- First estimate of maximal weight: the element Python stable descending
sort by weight places at index 0. -/
def firstMaxWeight : List Estimate → Estimate
  | [] => ⟨"", 0, 0⟩
  | [e] => e
  | e :: f :: rest =>
      let m := firstMaxWeight (f :: rest)
      if e.weight < m.weight then m else e

/-- Agreement test of `_fuse_estimates` as the code writes it:
`0.7 < e[1] / median_cm < 1.3`. -/
def agreesRatio (medianCm : ℚ) (e : Estimate) : Bool :=
  decide ((7 : ℚ) / 10 < e.cm / medianCm) &&
    decide (e.cm / medianCm < (13 : ℚ) / 10)

/-- Agreement test as the specification words it: the cm_per_pixel lies
strictly inside the band (0.7 median, 1.3 median). -/
def agreesBand (medianCm : ℚ) (e : Estimate) : Bool :=
  decide ((7 : ℚ) / 10 * medianCm < e.cm) &&
    decide (e.cm < (13 : ℚ) / 10 * medianCm)

/-- Trust-weight-weighted average of the cm_per_pixel values:
`sum(e[1] * e[2]) / sum(e[2])`. -/
def weightedAverageCm (l : List Estimate) : ℚ :=
  (l.map (fun e => e.cm * e.weight)).sum / (l.map (fun e => e.weight)).sum

/-- `_fuse_estimates` (`analyzer.py` lines 477-496).  Python
`estimates.sort(key=lambda e: e[2], reverse=True)` is a stable descending
sort by weight, modelled by `List.insertionSort` with the reflexive
descending-weight relation (any stable sort computes the same list).
`primary = estimates[0]` would raise on an empty list in Python; the model
returns a dummy pair there, and `_auto_calibrate` never passes an empty
list. -/
def fuseEstimates (estimates : List Estimate) : ℚ × String :=
  let sorted := List.insertionSort (fun a b => b.weight ≤ a.weight) estimates
  let primary := sorted.headD ⟨"", 0, 0⟩
  if 2 ≤ sorted.length then
    let medianCm := npMedian (sorted.map (fun e => e.cm))
    let agreeing := sorted.filter (agreesRatio medianCm)
    if 2 ≤ agreeing.length then
      (weightedAverageCm agreeing, primary.method)
    else (primary.cm, primary.method)
  else (primary.cm, primary.method)

/-- Fusion as the specification states it: median of all estimates,
agreeing estimates lie strictly inside (0.7 median, 1.3 median); with at
least two agreeing, return the trust-weight-weighted average of the
agreeing values labelled with the highest-weight estimate's name;
otherwise the single highest-weight estimate verbatim. -/
def specFuseEstimates (estimates : List Estimate) : ℚ × String :=
  let primary := firstMaxWeight estimates
  let medianCm := npMedian (estimates.map (fun e => e.cm))
  let agreeing := estimates.filter (agreesBand medianCm)
  if 2 ≤ agreeing.length then
    (weightedAverageCm agreeing, primary.method)
  else (primary.cm, primary.method)

/-- An internal pose frame record: the landmark-index-to-pixel-coordinate
dictionary built by `_run_pose_estimation` (`analyzer.py` lines 237-247),
restricted to the landmarks that the downstream code reads (nose,
shoulders, wrists, ankles; elbows and hips are stored but never read). -/
structure PoseRec where
  nose : Option (ℚ × ℚ)
  lShoulder : Option (ℚ × ℚ)
  rShoulder : Option (ℚ × ℚ)
  lWrist : Option (ℚ × ℚ)
  rWrist : Option (ℚ × ℚ)
  lAnkle : Option (ℚ × ℚ)
  rAnkle : Option (ℚ × ℚ)

/-- Forward-fill loop of `_run_pose_estimation` (`analyzer.py` lines
249-255), threading the last valid record. -/
def forwardFillAux {A : Type} (last : Option A) : List (Option A) → List (Option A)
  | [] => []
  | x :: xs =>
    match x with
    | some v => some v :: forwardFillAux (some v) xs
    | none => last :: forwardFillAux last xs

/-- Invalid records are replaced by the most recent valid record; records
before any valid record stay absent. -/
def forwardFill {A : Type} (xs : List (Option A)) : List (Option A) :=
  forwardFillAux none xs

/-- Median body measurements in pixels, `_measure_body_from_pose`
(`analyzer.py` lines 314-371).  A key is present exactly when at least one
frame produced that measurement. -/
structure BodyMeasurements where
  heightPx : Option ℚ
  shoulderWidthPx : Option ℚ
  armLengthPx : Option ℚ
deriving DecidableEq

/-- `_measure_body_from_pose`: per valid record collect ankle-to-nose
height (filtered above 10 px), shoulder width (above 5 px) and both arm
lengths (above 5 px), then take the median of each list.  `np.sqrt` is an
external float operation, passed in as `sqrtFn`. -/
def measureBodyFromPose (sqrtFn : ℚ → ℚ) (poseData : List (Option PoseRec)) :
    BodyMeasurements :=
  let recs := poseData.filterMap id
  let heights := recs.filterMap fun lm =>
    let ankle : Option (ℚ × ℚ) :=
      match lm.lAnkle, lm.rAnkle with
      | some l, some r => some ((l.1 + r.1) / 2, (l.2 + r.2) / 2)
      | some l, none => some l
      | none, some r => some r
      | none, none => none
    match ankle, lm.nose with
    | some a, some nz =>
        let h := |a.2 - nz.2|
        if 10 < h then some h else none
    | _, _ => none
  let shoulderWidths := recs.filterMap fun lm =>
    match lm.lShoulder, lm.rShoulder with
    | some ls, some rs =>
        let sw := sqrtFn ((ls.1 - rs.1) ^ 2 + (ls.2 - rs.2) ^ 2)
        if 5 < sw then some sw else none
    | _, _ => none
  let armSide := fun (s w : Option (ℚ × ℚ)) =>
    match s, w with
    | some sp, some wp =>
        let al := sqrtFn ((sp.1 - wp.1) ^ 2 + (sp.2 - wp.2) ^ 2)
        if 5 < al then [al] else []
    | _, _ => []
  let armLengths := recs.flatMap fun lm =>
    armSide lm.lShoulder lm.lWrist ++ armSide lm.rShoulder lm.rWrist
  { heightPx := if heights.isEmpty then none else some (npMedian heights)
    shoulderWidthPx :=
      if shoulderWidths.isEmpty then none else some (npMedian shoulderWidths)
    armLengthPx := if armLengths.isEmpty then none else some (npMedian armLengths) }

/-- `_compute_optical_flows` (`analyzer.py` lines 377-393): one magnitude
per consecutive frame pair, in index order.  `flowFn` abstracts the
Farneback flow plus 99th-percentile reduction applied to one pair. -/
def computeOpticalFlows {A : Type} [Inhabited A] (flowFn : A → A → ℚ)
    (frames : List A) : List ℚ :=
  (List.range (frames.length - 1)).map
    (fun i => flowFn (frames.getD i default) (frames.getD (i + 1) default))

/-- `np.argmax`: index of the first maximal element. -/
def argmaxFirst : List ℚ → ℕ
  | [] => 0
  | [_] => 0
  | x :: y :: rest =>
      let m := argmaxFirst (y :: rest)
      if x < (y :: rest).getD m 0 then m + 1 else 0

/-- Window mean of `_find_peak_speed` (`analyzer.py` lines 400-403):
slice `[max(0, p-2), min(len, p+3))`, then `np.mean`. -/
def smoothedAt (xs : List ℚ) (peakIdx : ℕ) : ℚ :=
  let start := peakIdx - 2
  let stop := min xs.length (peakIdx + 3)
  let window := (xs.drop start).take (stop - start)
  window.sum / window.length

/-- `_find_peak_speed` (`analyzer.py` lines 395-406): returns
`(final magnitude, peak index)`. -/
def findPeakSpeed (xs : List ℚ) : ℚ × ℕ :=
  let peakIdx := argmaxFirst xs
  let peakMag := xs.getD peakIdx 0
  let smoothed := smoothedAt xs peakIdx
  (max peakMag smoothed, peakIdx)

/-- `_compute_wrist_speed` (`analyzer.py` lines 277-308): wrist pixel
displacement between the records two indices before and after the peak,
divided by elapsed time; the faster wrist wins. -/
def computeWristSpeed (sqrtFn : ℚ → ℚ) (poseData : List (Option PoseRec))
    (peakIdx : ℕ) (fps : ℚ) : Option ℚ :=
  let start := peakIdx - 2
  let stop := min (poseData.length - 1) (peakIdx + 2)
  if stop ≤ start then none
  else
    match poseData.getD start none, poseData.getD stop none with
    | some lmStart, some lmEnd =>
        let dt := ((stop : ℚ) - (start : ℚ)) / fps
        let wristSpeed := fun (a b : Option (ℚ × ℚ)) =>
          match a, b with
          | some p1, some p2 =>
              some (if 0 < dt then
                      sqrtFn ((p2.1 - p1.1) ^ 2 + (p2.2 - p1.2) ^ 2) / dt
                    else 0)
          | _, _ => none
        let speeds := List.filterMap id
          [wristSpeed lmStart.lWrist lmEnd.lWrist,
           wristSpeed lmStart.rWrist lmEnd.rWrist]
        match speeds with
        | [] => none
        | s :: rest => some (rest.foldl max s)
    | _, _ => none

/-- Python `str.startswith`, evaluated on the character lists. -/
def pyStartsWith (s p : String) : Bool := p.data.isPrefixOf s.data

/-- Results of the four OpenCV/scikit-image detectors called by
`_auto_calibrate`: `_detect_stick_flow`, `_detect_stick_ridge`,
`_detect_stick_edges` and `_detect_player_height`.  Each returns a pixel
length or `None`; the image processing inside them is external, so the
pipeline is parametrized by their outputs.  None of them reads
`reference_length_cm`. -/
structure DetectorOutputs where
  stickFlowPx : Option ℚ
  stickRidgePx : Option ℚ
  stickEdgePx : Option ℚ
  playerPx : Option ℚ

/-- Python truthiness test `if x:` for an optional float. -/
def optTruthy (x : Option ℚ) : Bool :=
  match x with
  | none => false
  | some v => decide (v ≠ 0)

/-- Estimate-list construction of `_auto_calibrate` (`analyzer.py` lines
427-469): three pose-derived estimates where the body measurement exists
and is positive, one estimate per truthy stick detector, and the
silhouette fallback only when no pose estimate exists. -/
def calibrationEstimates (sqrtFn : ℚ → ℚ) (stickCm : ℚ) (det : DetectorOutputs)
    (poseData : List (Option PoseRec)) : List Estimate :=
  let body := measureBodyFromPose sqrtFn poseData
  let e1 : List Estimate :=
    match body.heightPx with
    | some h => if 0 < h then [⟨"pose_height", PLAYER_HEIGHT_CM / h, 92 / 100⟩] else []
    | none => []
  let e2 : List Estimate :=
    match body.shoulderWidthPx with
    | some s => if 0 < s then [⟨"pose_shoulder", SHOULDER_WIDTH_CM / s, 80 / 100⟩] else []
    | none => []
  let e3 : List Estimate :=
    match body.armLengthPx with
    | some a => if 0 < a then [⟨"pose_arm", ARM_LENGTH_CM / a, 75 / 100⟩] else []
    | none => []
  let e4 : List Estimate :=
    if optTruthy det.stickFlowPx then
      [⟨"stick_flow", stickCm / (det.stickFlowPx.getD 0), 85 / 100⟩] else []
  let e5 : List Estimate :=
    if optTruthy det.stickRidgePx then
      [⟨"stick_ridge", stickCm / (det.stickRidgePx.getD 0), 70 / 100⟩] else []
  let e6 : List Estimate :=
    if optTruthy det.stickEdgePx then
      [⟨"stick_edge", stickCm / (det.stickEdgePx.getD 0), 60 / 100⟩] else []
  let base := e1 ++ e2 ++ e3 ++ e4 ++ e5 ++ e6
  let e7 : List Estimate :=
    if base.all (fun e => !(pyStartsWith e.method "pose_")) then
      if optTruthy det.playerPx then
        [⟨"player_silhouette", PLAYER_HEIGHT_CM / (det.playerPx.getD 0), 40 / 100⟩]
      else []
    else []
  base ++ e7

/-- `_auto_calibrate` (`analyzer.py` lines 412-475): build the estimate
list, then fuse; with no estimate at all, assume the stick spans 35
percent of the frame width. -/
def autoCalibrate (sqrtFn : ℚ → ℚ) (frameW : ℚ) (det : DetectorOutputs)
    (referenceLengthCm : Option ℚ) (poseData : List (Option PoseRec)) :
    ℚ × String :=
  let stickCm := pyOrQ referenceLengthCm STICK_LENGTH_CM
  let estimates := calibrationEstimates sqrtFn stickCm det poseData
  if estimates.isEmpty then
    (stickCm / (frameW * STICK_WIDTH_RATIO_FALLBACK), "fallback")
  else fuseEstimates estimates

/-- Peak distinctness sub-score of `_calculate_confidence`
(`analyzer.py` lines 692-700). -/
def peakDistinctness (flowMagnitudes : List ℚ) (peakIdx : ℕ) : ℚ :=
  let meanMag := flowMagnitudes.sum / flowMagnitudes.length
  let peakMag := flowMagnitudes.getD peakIdx 0
  let s := if 0 < meanMag then min 1 ((peakMag / meanMag - 1) / 4) else 0
  max 0 s

/-- Per-method calibration quality scores, `analyzer.py` lines 702-713
(`dict.get` with default 0.15). -/
def methodScores (m : String) : ℚ :=
  if m = "pose_height" then 95 / 100
  else if m = "pose_shoulder" then 85 / 100
  else if m = "pose_arm" then 80 / 100
  else if m = "stick_flow" then 75 / 100
  else if m = "stick_ridge" then 65 / 100
  else if m = "stick_edge" then 55 / 100
  else if m = "player_silhouette" then 40 / 100
  else if m = "fallback" then 15 / 100
  else 15 / 100

/-- Calibration quality sub-score (`analyzer.py` lines 713-715): method
score plus a 0.05 bonus, capped at 1, when a reference length was
supplied. -/
def calQuality (calMethod : String) (referenceProvided : Bool) : ℚ :=
  let s := methodScores calMethod
  if referenceProvided then min 1 (s + 5 / 100) else s

/-- Video quality sub-score (`analyzer.py` lines 717-731): tiered bonuses
for frame count, fps and frame height, summed and capped at 1. -/
def videoQuality (fps : ℚ) (frameCount : ℕ) (frameHeight : ℚ) : ℚ :=
  let v1 := if 30 ≤ frameCount then 33 / 100
            else if 10 ≤ frameCount then 15 / 100 else 0
  let v2 := if 30 ≤ fps then 34 / 100 else if 15 ≤ fps then 17 / 100 else 0
  let v3 := if 480 ≤ frameHeight then 33 / 100
            else if 240 ≤ frameHeight then 15 / 100 else 0
  min 1 (v1 + v2 + v3)

/-- Pose detection quality sub-score (`analyzer.py` lines 733-740): the
fraction of entries of the (already forward-filled) `pose_data` list that
are not `None`, times 1.5 capped at 1, plus 0.2 capped at 1 when a wrist
speed was obtained; 0 when `pose_data` is falsy. -/
def poseQualityScore (poseData : List (Option PoseRec)) (hasWristSpeed : Bool) : ℚ :=
  if poseData.isEmpty then 0
  else
    let detected := (poseData.filter (fun p => p.isSome)).length
    let poseFrac := (detected : ℚ) / poseData.length
    let s := min 1 (poseFrac * (15 / 10))
    if hasWristSpeed then min 1 (s + 2 / 10) else s

/-- `_calculate_confidence` (`analyzer.py` lines 679-748): fixed-weight
sum of the four sub-scores, clamped to [0, 1] and rounded to 2 decimals. -/
def calculateConfidence (flowMagnitudes : List ℚ) (peakIdx : ℕ)
    (calMethod : String) (referenceProvided : Bool) (fps : ℚ)
    (frameCount : ℕ) (frameHeight : ℚ) (poseData : List (Option PoseRec))
    (hasWristSpeed : Bool) : ℚ :=
  let confidence :=
    (30 / 100) * peakDistinctness flowMagnitudes peakIdx +
    (35 / 100) * calQuality calMethod referenceProvided +
    (15 / 100) * videoQuality fps frameCount frameHeight +
    (20 / 100) * poseQualityScore poseData hasWristSpeed
  round2 (min 1 (max 0 confidence))

/-- Modelled from the spec: the confidence formula as section 4.11 words
it, for comparison with `calculateConfidence` — weights
0.30/0.35/0.15/0.20 when pose data is available, and 0.40/0.40/0.20 over
the remaining three sub-scores when it is unavailable. -/
def claimedConfidence (flowMagnitudes : List ℚ) (peakIdx : ℕ)
    (calMethod : String) (referenceProvided : Bool) (fps : ℚ)
    (frameCount : ℕ) (frameHeight : ℚ) (poseData : List (Option PoseRec))
    (hasWristSpeed : Bool) : ℚ :=
  let p := peakDistinctness flowMagnitudes peakIdx
  let c := calQuality calMethod referenceProvided
  let v := videoQuality fps frameCount frameHeight
  let q := poseQualityScore poseData hasWristSpeed
  let confidence :=
    if poseData.isEmpty then (40 / 100) * p + (40 / 100) * c + (20 / 100) * v
    else (30 / 100) * p + (35 / 100) * c + (15 / 100) * v + (20 / 100) * q
  round2 (min 1 (max 0 confidence))

/-- Modelled from the spec: the pose quality sub-score as section 4.11
words it — the fraction counts only genuinely detected records of the
pre-fill stream, not records carried forward by forward-fill. -/
def claimedPoseQuality (poseRaw : List (Option PoseRec)) (hasWristSpeed : Bool) : ℚ :=
  if poseRaw.isEmpty then 0
  else
    let genuine := (poseRaw.filter (fun p => p.isSome)).length
    let poseFrac := (genuine : ℚ) / poseRaw.length
    let s := min 1 (poseFrac * (15 / 10))
    if hasWristSpeed then min 1 (s + 2 / 10) else s

/-- Speed synthesis (`analyzer.py` lines 120-130): blend 0.6 flow speed
with 0.4 lever-adjusted (1.7) wrist speed when a wrist speed exists,
otherwise flow speed alone, in cm per second. -/
def speedCmPerSec (peakMagnitude fps cmPerPixel : ℚ)
    (wristSpeedPx : Option ℚ) : ℚ :=
  match wristSpeedPx with
  | some ws =>
      let poseSpeedCm := ws * (17 / 10) * cmPerPixel
      let flowSpeedCm := peakMagnitude * fps * cmPerPixel
      flowSpeedCm * (6 / 10) + poseSpeedCm * (4 / 10)
  | none => peakMagnitude * fps * cmPerPixel

/-- The pre-rounding `speed_cm_per_sec` value computed by `analyze`
(`analyzer.py` lines 100-130) as a function of the pipeline inputs. -/
def analyzeSpeedCmPerSec {A : Type} [Inhabited A] (sqrtFn : ℚ → ℚ)
    (flowFn : A → A → ℚ) (det : DetectorOutputs) (grayFrames : List A)
    (frameW fps : ℚ) (poseRaw : List (Option PoseRec))
    (referenceLengthCm : Option ℚ) : ℚ :=
  let poseData := forwardFill poseRaw
  let flowMagnitudes := computeOpticalFlows flowFn grayFrames
  let pk := findPeakSpeed flowMagnitudes
  let wristSpeedPx := computeWristSpeed sqrtFn poseData pk.2 fps
  let cal := autoCalibrate sqrtFn frameW det referenceLengthCm poseData
  speedCmPerSec pk.1 fps cal.1 wristSpeedPx

/-- Labeled fatal failures of `analyze` after a successful load:
`TooShort` (fewer than 5 frames), `analyzer.py` lines 92-96. -/
inductive AnalyzeError where
  | tooShort
deriving DecidableEq

/-- Result record of `analyze` (`analyzer.py` line 148).  The overlay
landmark stream is an opaque pass-through of external detections and is
not modelled. -/
structure AnalyzeResult where
  speedKmh : ℚ
  speedMph : ℚ
  confidence : ℚ
  frameSpeedsKmh : List ℚ
  fps : ℚ
deriving DecidableEq

/-- `analyze` (`analyzer.py` lines 79-148) after `_load_video`: reject
clips shorter than 5 frames, then forward-fill pose data, compute the
flow magnitude series, peak, wrist speed, calibration, speeds and
confidence. -/
def analyze {A : Type} [Inhabited A] (sqrtFn : ℚ → ℚ) (flowFn : A → A → ℚ)
    (det : DetectorOutputs) (grayFrames : List A) (frameW frameH fps : ℚ)
    (poseRaw : List (Option PoseRec)) (referenceLengthCm : Option ℚ) :
    Except AnalyzeError AnalyzeResult :=
  if grayFrames.length < 5 then Except.error AnalyzeError.tooShort
  else
    let poseData := forwardFill poseRaw
    let flowMagnitudes := computeOpticalFlows flowFn grayFrames
    let pk := findPeakSpeed flowMagnitudes
    let wristSpeedPx := computeWristSpeed sqrtFn poseData pk.2 fps
    let cal := autoCalibrate sqrtFn frameW det referenceLengthCm poseData
    let speedCm := analyzeSpeedCmPerSec sqrtFn flowFn det grayFrames frameW
      fps poseRaw referenceLengthCm
    let speedKmh := round1 (speedCm * (36 / 1000))
    let speedMph := round1 (speedKmh * (621371 / 1000000))
    let frameSpeedsKmh := flowMagnitudes.map
      (fun m => round2 (m * fps * cal.1 * (36 / 1000)))
    let conf := calculateConfidence flowMagnitudes pk.2 cal.2
      referenceLengthCm.isSome fps grayFrames.length frameH poseData
      wristSpeedPx.isSome
    Except.ok ⟨speedKmh, speedMph, conf, frameSpeedsKmh, fps⟩

/-- Keyword parameters accepted by `IceHockeyAnalyzer.analyze`
(`analyzer.py` lines 79-80): positional-or-keyword names of its
signature. -/
def analyzeAcceptedKeywords : List String :=
  ["video_path", "reference_length_cm", "on_progress"]

/-- Keyword arguments that `run_analysis` passes to `analyzer.analyze`
(`app.py` lines 32-35). -/
def runAnalysisKeywords : List String :=
  ["on_progress", "player_height_cm"]

/-- Python keyword binding: the call raises `TypeError` when a supplied
keyword is not a parameter name, and only otherwise runs the body. -/
def pythonKeywordCall {B : Type} (accepted : List String)
    (kwargs : List String) (body : B) : Except String B :=
  if kwargs.all (fun k => accepted.contains k) then Except.ok body
  else Except.error "TypeError: unexpected keyword argument"

/-- Callback payload built by `run_analysis` (`app.py` lines 36-58). -/
structure CallbackPayload where
  success : Bool
  speedKmh : Option ℚ
  speedMph : Option ℚ
  confidence : Option ℚ
  errorMessage : Option String
deriving DecidableEq

/-- `run_analysis` (`app.py` lines 23-58): call `analyzer.analyze` with
the keyword arguments it actually passes; any exception is caught and
turned into a failure payload.  `body` stands for the analysis result the
call would produce if the binding succeeded. -/
def runAnalysis (body : AnalyzeResult) : CallbackPayload :=
  match pythonKeywordCall analyzeAcceptedKeywords runAnalysisKeywords body with
  | Except.ok r =>
      { success := true
        speedKmh := some r.speedKmh
        speedMph := some r.speedMph
        confidence := some r.confidence
        errorMessage := none }
  | Except.error e =>
      { success := false
        speedKmh := none
        speedMph := none
        confidence := none
        errorMessage := some e }

/-! Concrete sample inputs used by witnesses and counterexamples. -/

/-- Sample stand-in for `np.sqrt` (never reached on the sample pose data,
whose records carry no shoulder or wrist landmarks). -/
def sampleSqrt : ℚ → ℚ := fun q => q

/-- Sample per-pair flow magnitude function over `ℕ`-coded frames. -/
def sampleFlow : ℕ → ℕ → ℚ := fun _ b => (b : ℚ)

/-- Sample detector outputs: every detector returns `None`. -/
def sampleDet : DetectorOutputs := ⟨none, none, none, none⟩

/-- Sample pose record: nose at the origin, left ankle 183 px below it,
which makes the pose-height calibration come out at exactly 1 cm/px. -/
def sampleRec : PoseRec :=
  ⟨some (0, 0), none, none, none, none, some (0, 183), none⟩

/-- Sample pre-fill pose stream: a genuine detection on frame 0 only. -/
def samplePoseRaw : List (Option PoseRec) :=
  [some sampleRec, none, none, none, none]

/-- Sample five-frame clip. -/
def sampleFrames : List ℕ := [0, 1, 2, 3, 4]

/-! ## Theorems -/

/-- Claim C9: `run_analysis` in `app.py` passes the keyword argument
`player_height_cm`, which the signature of `IceHockeyAnalyzer.analyze`
does not accept, so the call raises `TypeError`, the handler catches it,
and the callback payload always reports `success = False` with no speed
result — whatever result the analysis would have produced. -/
theorem runAnalysis_always_fails (body : AnalyzeResult) :
    (runAnalysis body).success = false ∧ (runAnalysis body).speedKmh = none ∧
    (runAnalysis body).errorMessage.isSome = true := by
  refine ⟨rfl, rfl, rfl⟩

/-- Claim C4: a clip that decodes to 4 or fewer frames is rejected by
`analyze` with the `TooShort` labeled failure, and the outcome does not
depend on the optical-flow computation (the same error results for every
flow function, so no motion computation can have influenced it). -/
theorem analyze_tooShort {A : Type} [Inhabited A] (sqrtFn : ℚ → ℚ)
    (flowFn flowFn2 : A → A → ℚ) (det : DetectorOutputs) (frames : List A)
    (frameW frameH fps : ℚ) (poseRaw : List (Option PoseRec))
    (ref : Option ℚ) (h : frames.length ≤ 4) :
    analyze sqrtFn flowFn det frames frameW frameH fps poseRaw ref =
      Except.error AnalyzeError.tooShort ∧
    analyze sqrtFn flowFn det frames frameW frameH fps poseRaw ref =
      analyze sqrtFn flowFn2 det frames frameW frameH fps poseRaw ref := by
  have hlt : frames.length < 5 := by omega
  constructor
  · simp [analyze, hlt]
  · simp [analyze, hlt]

/-- Witness for C4 at a concrete three-frame clip and two distinct flow
functions. -/
theorem analyze_tooShort_witness :
    ([0, 1, 2] : List ℕ).length ≤ 4 ∧
    (analyze sampleSqrt sampleFlow sampleDet [0, 1, 2] 100 480 30 [] none =
       Except.error AnalyzeError.tooShort ∧
     analyze sampleSqrt sampleFlow sampleDet [0, 1, 2] 100 480 30 [] none =
       analyze sampleSqrt (fun _ _ => 7) sampleDet [0, 1, 2] 100 480 30 [] none) :=
  ⟨by decide,
   analyze_tooShort sampleSqrt sampleFlow (fun _ _ => 7) sampleDet [0, 1, 2]
     100 480 30 [] none (by decide)⟩

/-- Claim C7: the flow magnitude series has length exactly one less than
the frame count, its i-th element is the per-pair magnitude of frames i
and i+1 in input order, and consequently the per-frame speed output
series of `analyze` also has length frame count minus one. -/
theorem flowSeries_length {A : Type} [Inhabited A] (sqrtFn : ℚ → ℚ)
    (flowFn : A → A → ℚ) (det : DetectorOutputs) (frames : List A)
    (frameW frameH fps : ℚ) (poseRaw : List (Option PoseRec))
    (ref : Option ℚ) (h5 : 5 ≤ frames.length) :
    (computeOpticalFlows flowFn frames).length = frames.length - 1 ∧
    (∀ i < frames.length - 1,
      (computeOpticalFlows flowFn frames).getD i 0 =
        flowFn (frames.getD i default) (frames.getD (i + 1) default)) ∧
    ∃ res, analyze sqrtFn flowFn det frames frameW frameH fps poseRaw ref =
        Except.ok res ∧
      res.frameSpeedsKmh.length = frames.length - 1 := by
  have hlen : (computeOpticalFlows flowFn frames).length = frames.length - 1 := by
    simp [computeOpticalFlows]
  refine ⟨hlen, ?_, ?_⟩
  · intro i hi
    have hi2 : i < (List.range (frames.length - 1)).length := by simpa using hi
    rw [computeOpticalFlows, List.getD_eq_getElem _ _ (by simpa using hi2),
      List.getElem_map, List.getElem_range]
  · have hlt : ¬ frames.length < 5 := by omega
    simp only [analyze, if_neg hlt]
    exact ⟨_, rfl, by simpa using hlen⟩

/-- Witness for C7 at a concrete five-frame clip. -/
theorem flowSeries_length_witness :
    5 ≤ ([0, 1, 2, 3, 4] : List ℕ).length ∧
    ((computeOpticalFlows sampleFlow [0, 1, 2, 3, 4]).length =
       ([0, 1, 2, 3, 4] : List ℕ).length - 1 ∧
     (∀ i < ([0, 1, 2, 3, 4] : List ℕ).length - 1,
       (computeOpticalFlows sampleFlow [0, 1, 2, 3, 4]).getD i 0 =
         sampleFlow (([0, 1, 2, 3, 4] : List ℕ).getD i default)
           (([0, 1, 2, 3, 4] : List ℕ).getD (i + 1) default)) ∧
     ∃ res, analyze sampleSqrt sampleFlow sampleDet [0, 1, 2, 3, 4] 100 480 30
         samplePoseRaw none = Except.ok res ∧
       res.frameSpeedsKmh.length = ([0, 1, 2, 3, 4] : List ℕ).length - 1) :=
  ⟨by decide,
   flowSeries_length sampleSqrt sampleFlow sampleDet [0, 1, 2, 3, 4] 100 480 30
     samplePoseRaw none (by decide)⟩

/-- `argmaxFirst` returns an in-bounds index of a maximal element, and
every earlier element is strictly smaller (first-maximal-index tie
resolution, as `np.argmax`). -/
theorem argmaxFirst_correct : ∀ xs : List ℚ, xs ≠ [] →
    argmaxFirst xs < xs.length ∧
    (∀ j < xs.length, xs.getD j 0 ≤ xs.getD (argmaxFirst xs) 0) ∧
    (∀ j < argmaxFirst xs, xs.getD j 0 < xs.getD (argmaxFirst xs) 0)
  | [], h => absurd rfl h
  | [x], _ => by
      refine ⟨by simp [argmaxFirst], ?_, ?_⟩
      · intro j hj
        have hj0 : j = 0 := Nat.lt_one_iff.mp (by simpa using hj)
        subst hj0
        exact le_rfl
      · intro j hj
        simp [argmaxFirst] at hj
  | x :: y :: rest, _ => by
      obtain ⟨ih1, ih2, ih3⟩ := argmaxFirst_correct (y :: rest) (by simp)
      by_cases hc : x < (y :: rest).getD (argmaxFirst (y :: rest)) 0
      · have hval : argmaxFirst (x :: y :: rest) = argmaxFirst (y :: rest) + 1 := by
          have hc2 : x < (y :: rest)[argmaxFirst (y :: rest)]?.getD 0 := by
            simpa using hc
          simp [argmaxFirst, hc2]
        rw [hval]
        refine ⟨by simpa using ih1, ?_, ?_⟩
        · intro j hj
          rw [List.getD_cons_succ]
          match j with
          | 0 => rw [List.getD_cons_zero]; exact le_of_lt hc
          | j + 1 =>
            rw [List.getD_cons_succ]
            exact ih2 j (by simpa using hj)
        · intro j hj
          rw [List.getD_cons_succ]
          match j with
          | 0 => rw [List.getD_cons_zero]; exact hc
          | j + 1 =>
            rw [List.getD_cons_succ]
            exact ih3 j (by omega)
      · have hval : argmaxFirst (x :: y :: rest) = 0 := by
          have hc2 : ¬ x < (y :: rest)[argmaxFirst (y :: rest)]?.getD 0 := by
            simpa using hc
          simp [argmaxFirst, hc2]
        rw [hval]
        refine ⟨by simp, ?_, ?_⟩
        · intro j hj
          rw [List.getD_cons_zero]
          match j with
          | 0 => rw [List.getD_cons_zero]
          | j + 1 =>
            rw [List.getD_cons_succ]
            exact le_trans (ih2 j (by simpa using hj)) (not_lt.mp hc)
        · intro j hj
          omega

/-- Claim C5: on a non-empty flow-magnitude series, the peak locator
returns the first maximal index, the final magnitude equals
`max(raw value, mean of the clamped window around the peak)`, and is
never less than either input. -/
theorem findPeakSpeed_spec (xs : List ℚ) (h : xs ≠ []) :
    (findPeakSpeed xs).2 < xs.length ∧
    (∀ j < xs.length, xs.getD j 0 ≤ xs.getD (findPeakSpeed xs).2 0) ∧
    (∀ j < (findPeakSpeed xs).2, xs.getD j 0 < xs.getD (findPeakSpeed xs).2 0) ∧
    (findPeakSpeed xs).1 =
      max (xs.getD (findPeakSpeed xs).2 0) (smoothedAt xs (findPeakSpeed xs).2) ∧
    xs.getD (findPeakSpeed xs).2 0 ≤ (findPeakSpeed xs).1 ∧
    smoothedAt xs (findPeakSpeed xs).2 ≤ (findPeakSpeed xs).1 := by
  obtain ⟨h1, h2, h3⟩ := argmaxFirst_correct xs h
  exact ⟨h1, h2, h3, rfl, le_max_left _ _, le_max_right _ _⟩

/-- Witness for C5 on the concrete series `[1, 3, 3, 2]` (the first of
the two tied maxima is chosen; the smoothed mean is 9/4). -/
theorem findPeakSpeed_spec_witness :
    ([1, 3, 3, 2] : List ℚ) ≠ [] ∧
    ((findPeakSpeed [1, 3, 3, 2]).2 < ([1, 3, 3, 2] : List ℚ).length ∧
     (∀ j < ([1, 3, 3, 2] : List ℚ).length,
       ([1, 3, 3, 2] : List ℚ).getD j 0 ≤
         ([1, 3, 3, 2] : List ℚ).getD (findPeakSpeed [1, 3, 3, 2]).2 0) ∧
     (∀ j < (findPeakSpeed [1, 3, 3, 2]).2,
       ([1, 3, 3, 2] : List ℚ).getD j 0 <
         ([1, 3, 3, 2] : List ℚ).getD (findPeakSpeed [1, 3, 3, 2]).2 0) ∧
     (findPeakSpeed [1, 3, 3, 2]).1 =
       max (([1, 3, 3, 2] : List ℚ).getD (findPeakSpeed [1, 3, 3, 2]).2 0)
         (smoothedAt [1, 3, 3, 2] (findPeakSpeed [1, 3, 3, 2]).2) ∧
     ([1, 3, 3, 2] : List ℚ).getD (findPeakSpeed [1, 3, 3, 2]).2 0 ≤
       (findPeakSpeed [1, 3, 3, 2]).1 ∧
     smoothedAt [1, 3, 3, 2] (findPeakSpeed [1, 3, 3, 2]).2 ≤
       (findPeakSpeed [1, 3, 3, 2]).1) :=
  ⟨by decide, findPeakSpeed_spec [1, 3, 3, 2] (by decide)⟩

/-- Half-even rounding never exceeds an integer bound satisfied by the
argument. -/
lemma roundHalfEven_le (q : ℚ) (z : ℤ) (h : q ≤ z) : roundHalfEven q ≤ z := by
  have hf : ⌊q⌋ ≤ z := by
    have h2 := Int.floor_le_floor h
    simpa using h2
  have key : ¬ (q - ⌊q⌋ < 1 / 2) → ⌊q⌋ + 1 ≤ z := by
    intro hr
    rcases lt_or_eq_of_le hf with hlt | heq
    · omega
    · exfalso
      apply hr
      have hzq : q ≤ ((⌊q⌋ : ℤ) : ℚ) := by
        rw [heq]
        exact_mod_cast h
      linarith
  simp only [roundHalfEven]
  split_ifs with h1 h2 h3
  · exact hf
  · exact key h1
  · exact hf
  · exact key h1

/-- Two-decimal rounding preserves the 0.8 upper bound. -/
lemma round2_le_four_fifths (q : ℚ) (h : q ≤ 4 / 5) : round2 q ≤ 4 / 5 := by
  have h100 : q * 100 ≤ ((80 : ℤ) : ℚ) := by push_cast; linarith
  have hr := roundHalfEven_le (q * 100) 80 h100
  unfold round2
  rw [div_le_iff₀ (by norm_num : (0 : ℚ) < 100)]
  calc ((roundHalfEven (q * 100) : ℤ) : ℚ) ≤ ((80 : ℤ) : ℚ) := by exact_mod_cast hr
    _ = 4 / 5 * 100 := by norm_num

/-- The peak distinctness sub-score is at most 1. -/
lemma peakDistinctness_le_one (xs : List ℚ) (i : ℕ) :
    peakDistinctness xs i ≤ 1 := by
  simp only [peakDistinctness]
  apply max_le (by norm_num)
  split_ifs
  · exact min_le_left _ _
  · norm_num

/-- Every per-method calibration score is at most 0.95. -/
lemma methodScores_le (m : String) : methodScores m ≤ 95 / 100 := by
  unfold methodScores
  split_ifs <;> norm_num

/-- The calibration quality sub-score is at most 1. -/
lemma calQuality_le_one (m : String) (rp : Bool) : calQuality m rp ≤ 1 := by
  simp only [calQuality]
  split_ifs
  · exact min_le_left _ _
  · exact le_trans (methodScores_le m) (by norm_num)

/-- The video quality sub-score is at most 1. -/
lemma videoQuality_le_one (fps : ℚ) (fc : ℕ) (fh : ℚ) :
    videoQuality fps fc fh ≤ 1 := by
  simp only [videoQuality]
  exact min_le_left _ _

/-- Counterexample to claim C2: with pose data unavailable and
distinct-peak, full-quality video inputs, the code weighs the three
remaining sub-scores 0.30/0.35/0.15 (total 0.50 here), not the claimed
renormalized 0.40/0.40/0.20 (which would give 0.66). -/
theorem confidence_weights_cex :
    calculateConfidence [0, 0, 0, 0, 10] 4 "fallback" false 30 30 480 [] false
      = 1 / 2 ∧
    claimedConfidence [0, 0, 0, 0, 10] 4 "fallback" false 30 30 480 [] false
      = 33 / 50 ∧
    (1 : ℚ) / 2 ≠ 33 / 50 :=
  ⟨by decide, by decide, by decide⟩

/-- Claim C2 (amended): the confidence is always the weighted sum with
fixed weights 0.30 (peak), 0.35 (calibration), 0.15 (video), 0.20 (pose),
clamped to [0,1] and rounded to 2 decimals; when pose data is unavailable
the pose term is 0 — the remaining weights are not renormalized — so the
confidence can never exceed 0.80. -/
theorem confidence_weights_noPose (flowMagnitudes : List ℚ) (peakIdx : ℕ)
    (calMethod : String) (referenceProvided : Bool) (fps : ℚ)
    (frameCount : ℕ) (frameHeight : ℚ) (hasWristSpeed : Bool) :
    calculateConfidence flowMagnitudes peakIdx calMethod referenceProvided fps
      frameCount frameHeight [] hasWristSpeed =
      round2 (min 1 (max 0
        ((30 / 100) * peakDistinctness flowMagnitudes peakIdx +
         (35 / 100) * calQuality calMethod referenceProvided +
         (15 / 100) * videoQuality fps frameCount frameHeight))) ∧
    calculateConfidence flowMagnitudes peakIdx calMethod referenceProvided fps
      frameCount frameHeight [] hasWristSpeed ≤ 4 / 5 := by
  have hzero : poseQualityScore [] hasWristSpeed = 0 := rfl
  have hS : (30 / 100) * peakDistinctness flowMagnitudes peakIdx +
      (35 / 100) * calQuality calMethod referenceProvided +
      (15 / 100) * videoQuality fps frameCount frameHeight +
      (20 / 100) * poseQualityScore [] hasWristSpeed ≤ 4 / 5 := by
    rw [hzero]
    have h1 := peakDistinctness_le_one flowMagnitudes peakIdx
    have h2 := calQuality_le_one calMethod referenceProvided
    have h3 := videoQuality_le_one fps frameCount frameHeight
    have h1b : (0 : ℚ) ≤ 1 := by norm_num
    linarith
  constructor
  · simp only [calculateConfidence, hzero, mul_zero, add_zero]
  · simp only [calculateConfidence]
    apply round2_le_four_fifths
    exact le_trans (min_le_right _ _) (max_le (by norm_num) hS)

/-- Forward-filling preserves the stream length. -/
lemma forwardFillAux_length {A : Type} (last : Option A) (xs : List (Option A)) :
    (forwardFillAux last xs).length = xs.length := by
  induction xs generalizing last with
  | nil => rfl
  | cons x xs ih => cases x <;> simp [forwardFillAux, ih]

/-- Forward-filling preserves the stream length. -/
lemma forwardFill_length {A : Type} (xs : List (Option A)) :
    (forwardFill xs).length = xs.length :=
  forwardFillAux_length none xs

/-- Once a valid record has been seen, forward-filling makes every later
entry present. -/
lemma forwardFillAux_some_count {A : Type} (v : A) (xs : List (Option A)) :
    ((forwardFillAux (some v) xs).filter (fun p => p.isSome)).length = xs.length := by
  induction xs generalizing v with
  | nil => rfl
  | cons x xs ih =>
    cases x with
    | none => simpa [forwardFillAux, List.filter_cons] using ih v
    | some u => simpa [forwardFillAux, List.filter_cons] using ih u

/-- The number of present entries after forward-filling equals the number
of frames at or after the first genuine detection. -/
lemma forwardFill_count {A : Type} (xs : List (Option A)) :
    ((forwardFill xs).filter (fun p => p.isSome)).length =
      xs.length - xs.findIdx (fun p => p.isSome) := by
  induction xs with
  | nil => rfl
  | cons x xs ih =>
    cases x with
    | some u =>
      simpa [forwardFill, forwardFillAux, List.filter_cons, List.findIdx_cons]
        using forwardFillAux_some_count u xs
    | none =>
      have hstep : forwardFill (none :: xs) = none :: forwardFill xs := rfl
      have hle : xs.findIdx (fun p => p.isSome) ≤ xs.length :=
        List.findIdx_le_length _
      rw [hstep, List.filter_cons]
      simp only [Option.isSome_none, Bool.false_eq_true, if_false,
        List.findIdx_cons, cond_false, List.length_cons, ih]
      omega

/-- Counterexample to claim C6: on a stream whose only genuine detection
is frame 0 of 4, the code computes a pose quality of 1 (the forward-fill
makes all 4 entries count as detected), while the claimed genuine-only
fraction gives 1/4 times 1.5 = 3/8. -/
theorem poseQuality_forwardFill_cex :
    poseQualityScore (forwardFill [some sampleRec, none, none, none]) false = 1 ∧
    claimedPoseQuality [some sampleRec, none, none, none] false = 3 / 8 ∧
    (1 : ℚ) ≠ 3 / 8 :=
  ⟨by decide, by decide, by decide⟩

/-- Claim C6 (amended): the pose-quality sub-score counts every frame
with a record after forward-fill — that is, every frame at or after the
first genuinely detected frame, carried-forward records included — as
detected; that fraction is multiplied by 1.5 and clamped to 1, plus 0.2
(clamped to 1) when a wrist-speed estimate was obtained. -/
theorem poseQuality_counts_filled (pre : List (Option PoseRec)) (w : Bool) :
    poseQualityScore (forwardFill pre) w =
      if pre.isEmpty then 0
      else
        let detected := pre.length - pre.findIdx (fun p => p.isSome)
        let s := min 1 (((detected : ℕ) : ℚ) / pre.length * (15 / 10))
        if w then min 1 (s + 2 / 10) else s := by
  cases pre with
  | nil => rfl
  | cons x xs =>
    have hne : (forwardFill (x :: xs)).isEmpty = false := by
      have hl : (forwardFill (x :: xs)).length = xs.length + 1 := by
        simpa using forwardFill_length (x :: xs)
      cases hfe : forwardFill (x :: xs) with
      | nil => rw [hfe] at hl; simp at hl
      | cons y ys => rfl
    simp only [poseQualityScore, hne, Bool.false_eq_true, if_false,
      List.isEmpty_cons, forwardFill_count]
    rw [forwardFill_length]

set_option maxRecDepth 100000 in
set_option maxHeartbeats 1000000 in
/-- Counterexample to claim C10: with a reference length of 0, calibration
indeed falls back to the default (both runs report the same speed), but
`analyze` does not behave identically to the no-reference run — the
confidence check `reference_length_cm is not None` is true for 0, so the
+0.05 calibration-quality bonus applies and the confidence differs
(0.70 versus 0.68 on this input). -/
theorem analyze_zeroReference_cex :
    (analyze sampleSqrt sampleFlow sampleDet sampleFrames 100 480 30
        samplePoseRaw (some 0)).toOption.map (fun r => r.confidence) =
      some (7 / 10) ∧
    (analyze sampleSqrt sampleFlow sampleDet sampleFrames 100 480 30
        samplePoseRaw none).toOption.map (fun r => r.confidence) =
      some (17 / 25) ∧
    (7 : ℚ) / 10 ≠ 17 / 25 ∧
    (analyze sampleSqrt sampleFlow sampleDet sampleFrames 100 480 30
        samplePoseRaw (some 0)).toOption.map (fun r => r.speedKmh) =
      (analyze sampleSqrt sampleFlow sampleDet sampleFrames 100 480 30
        samplePoseRaw none).toOption.map (fun r => r.speedKmh) :=
  ⟨by decide, by decide, by decide, by decide⟩

/-- Claim C10 (amended): calibration treats a caller-supplied reference
length of 0 exactly like an absent one — `_auto_calibrate` returns the
same result, using the default 155 cm constant for every stick-based
estimate and for the fallback — but `analyze` as a whole does not behave
identically, because the confidence reference bonus still applies (see
the counterexample). -/
theorem autoCalibrate_zeroReference (sqrtFn : ℚ → ℚ) (frameW : ℚ)
    (det : DetectorOutputs) (poseData : List (Option PoseRec)) :
    autoCalibrate sqrtFn frameW det (some 0) poseData =
      autoCalibrate sqrtFn frameW det none poseData := by
  simp [autoCalibrate, pyOrQ]

/-- Claim C3: fusing any non-empty estimate list whose entries carry
positive cm_per_pixel and positive trust weight terminates with a
strictly positive cm_per_pixel; and when no estimate exists at all (no
body measurement, every detector `None`), `_auto_calibrate` returns the
unconditional fallback that assumes the stick spans 35 percent of the
frame width — also strictly positive. -/
theorem fusion_positive :
    (∀ es : List Estimate, es ≠ [] →
      (∀ e ∈ es, 0 < e.cm ∧ 0 < e.weight) → 0 < (fuseEstimates es).1) ∧
    (∀ (sqrtFn : ℚ → ℚ) (frameW : ℚ) (ref : Option ℚ)
       (poseData : List (Option PoseRec)),
      0 < frameW → (∀ r, ref = some r → 0 ≤ r) →
      measureBodyFromPose sqrtFn poseData = ⟨none, none, none⟩ →
      autoCalibrate sqrtFn frameW ⟨none, none, none, none⟩ ref poseData =
        (pyOrQ ref STICK_LENGTH_CM / (frameW * STICK_WIDTH_RATIO_FALLBACK),
         "fallback") ∧
      0 < pyOrQ ref STICK_LENGTH_CM / (frameW * STICK_WIDTH_RATIO_FALLBACK)) := by
  constructor
  · intro es hne hpos
    have hposS : ∀ e ∈ List.insertionSort
        (fun a b : Estimate => b.weight ≤ a.weight) es, 0 < e.cm ∧ 0 < e.weight := by
      intro e he
      exact hpos e ((List.perm_insertionSort _ es).subset he)
    have hneS : List.insertionSort
        (fun a b : Estimate => b.weight ≤ a.weight) es ≠ [] := by
      intro h0
      have hlen := List.length_insertionSort
        (fun a b : Estimate => b.weight ≤ a.weight) es
      rw [h0] at hlen
      exact hne (List.eq_nil_of_length_eq_zero hlen.symm)
    obtain ⟨p, rest, hps⟩ := List.exists_cons_of_ne_nil hneS
    rw [hps] at hposS
    simp only [fuseEstimates]
    rw [hps]
    simp only [List.headD_cons]
    split_ifs with h2 h3
    · apply div_pos
      · apply List.sum_pos
        · intro x hx
          obtain ⟨e, he, rfl⟩ := List.mem_map.mp hx
          have hee : e ∈ p :: rest := (List.mem_filter.mp he).1
          have hp := hposS e hee
          exact mul_pos hp.1 hp.2
        · apply List.length_pos.mp
          rw [List.length_map]
          omega
      · apply List.sum_pos
        · intro x hx
          obtain ⟨e, he, rfl⟩ := List.mem_map.mp hx
          exact (hposS e (List.mem_filter.mp he).1).2
        · apply List.length_pos.mp
          rw [List.length_map]
          omega
    · exact (hposS p (List.mem_cons_self p rest)).1
    · exact (hposS p (List.mem_cons_self p rest)).1
  · intro sqrtFn frameW ref poseData hW hRef hbody
    have hstick : 0 < pyOrQ ref STICK_LENGTH_CM := by
      cases ref with
      | none => norm_num [pyOrQ, STICK_LENGTH_CM]
      | some r =>
        have hr := hRef r rfl
        by_cases h0 : r = 0
        · simp only [pyOrQ, if_pos h0]
          norm_num [STICK_LENGTH_CM]
        · simp only [pyOrQ, if_neg h0]
          exact lt_of_le_of_ne hr (Ne.symm h0)
    have hempty : calibrationEstimates sqrtFn (pyOrQ ref STICK_LENGTH_CM)
        ⟨none, none, none, none⟩ poseData = [] := by
      simp [calibrationEstimates, hbody, optTruthy]
    constructor
    · simp [autoCalibrate, hempty]
    · exact div_pos hstick
        (mul_pos hW (by norm_num [STICK_WIDTH_RATIO_FALLBACK]))

/-- Witness for C3: a concrete two-estimate fusion and the concrete
all-detectors-failed fallback. -/
theorem fusion_positive_witness :
    0 < (fuseEstimates
      [⟨"pose_height", 1, 92 / 100⟩, ⟨"stick_flow", 11 / 10, 85 / 100⟩]).1 ∧
    (autoCalibrate (fun q => q) 100 ⟨none, none, none, none⟩ none [] =
      (pyOrQ none STICK_LENGTH_CM / (100 * STICK_WIDTH_RATIO_FALLBACK),
       "fallback") ∧
     0 < pyOrQ none STICK_LENGTH_CM / (100 * STICK_WIDTH_RATIO_FALLBACK)) :=
  ⟨fusion_positive.1
    [⟨"pose_height", 1, 92 / 100⟩, ⟨"stick_flow", 11 / 10, 85 / 100⟩]
    (by decide) (by decide),
   fusion_positive.2 (fun q => q) 100 none [] (by decide)
    (fun r h => nomatch h) (by decide)⟩

/-- The head of the stable descending-weight sort is the first estimate
of maximal weight. -/
lemma insertionSort_headD :
    ∀ es : List Estimate, es ≠ [] → ∀ d : Estimate,
      (List.insertionSort (fun a b : Estimate => b.weight ≤ a.weight) es).headD d =
        firstMaxWeight es
  | [], h, _ => absurd rfl h
  | [e], _, d => rfl
  | e :: f :: rest, _, d => by
      have ih := insertionSort_headD (f :: rest) (by simp) d
      have hneS : List.insertionSort
          (fun a b : Estimate => b.weight ≤ a.weight) (f :: rest) ≠ [] := by
        intro h0
        have hlen := List.length_insertionSort
          (fun a b : Estimate => b.weight ≤ a.weight) (f :: rest)
        rw [h0] at hlen
        simp at hlen
      obtain ⟨b, l, hbl⟩ := List.exists_cons_of_ne_nil hneS
      have hb : b = firstMaxWeight (f :: rest) := by
        rw [hbl] at ih
        simpa using ih
      have hstep : List.insertionSort
          (fun a b : Estimate => b.weight ≤ a.weight) (e :: f :: rest) =
          List.orderedInsert (fun a b : Estimate => b.weight ≤ a.weight) e
            (b :: l) := by
        rw [List.insertionSort, hbl]
      rw [hstep]
      simp only [List.orderedInsert]
      by_cases hw : b.weight ≤ e.weight
      · rw [if_pos hw, List.headD_cons]
        have : ¬ e.weight < (firstMaxWeight (f :: rest)).weight := by
          rw [← hb]
          exact not_lt.mpr hw
        simp [firstMaxWeight, this]
      · rw [if_neg hw, List.headD_cons]
        have : e.weight < (firstMaxWeight (f :: rest)).weight := by
          rw [← hb]
          exact not_le.mp hw
        simp [firstMaxWeight, this, hb]

/-- `np.median` only depends on the multiset of values. -/
lemma npMedian_congr_perm {xs ys : List ℚ} (h : xs.Perm ys) :
    npMedian xs = npMedian ys := by
  unfold npMedian
  rw [List.eq_of_perm_of_sorted
    (((List.perm_insertionSort _ xs).trans h).trans
      (List.perm_insertionSort _ ys).symm)
    (List.sorted_insertionSort _ xs) (List.sorted_insertionSort _ ys)]

/-- The median of a list of positive rationals is positive. -/
lemma npMedian_pos {xs : List ℚ} (hne : xs ≠ []) (h : ∀ x ∈ xs, 0 < x) :
    0 < npMedian xs := by
  have hlen : (List.insertionSort (· ≤ ·) xs).length = xs.length :=
    List.length_insertionSort _ xs
  have hmem : ∀ x ∈ List.insertionSort (· ≤ ·) xs, 0 < x := by
    intro x hx
    exact h x ((List.perm_insertionSort _ xs).subset hx)
  have hpos : 0 < xs.length := List.length_pos.mpr hne
  simp only [npMedian]
  split_ifs with hodd
  · have hi : (List.insertionSort (· ≤ ·) xs).length / 2 <
        (List.insertionSort (· ≤ ·) xs).length := by
      omega
    rw [List.getD_eq_getElem _ _ hi]
    exact hmem _ (List.getElem_mem hi)
  · have hi1 : (List.insertionSort (· ≤ ·) xs).length / 2 - 1 <
        (List.insertionSort (· ≤ ·) xs).length := by
      omega
    have hi2 : (List.insertionSort (· ≤ ·) xs).length / 2 <
        (List.insertionSort (· ≤ ·) xs).length := by
      omega
    rw [List.getD_eq_getElem _ _ hi1, List.getD_eq_getElem _ _ hi2]
    have p1 := hmem _ (List.getElem_mem hi1)
    have p2 := hmem _ (List.getElem_mem hi2)
    positivity

/-- With a positive median, the code's ratio test and the specification's
band test coincide. -/
lemma agrees_eq (med : ℚ) (hmed : 0 < med) (e : Estimate) :
    agreesRatio med e = agreesBand med e := by
  unfold agreesRatio agreesBand
  rw [decide_eq_decide.mpr (lt_div_iff₀ hmed),
    decide_eq_decide.mpr (div_lt_iff₀ hmed)]

/-- The weighted average only depends on the multiset of estimates. -/
lemma weightedAverageCm_perm {l1 l2 : List Estimate} (h : l1.Perm l2) :
    weightedAverageCm l1 = weightedAverageCm l2 := by
  unfold weightedAverageCm
  rw [(h.map (fun e => e.cm * e.weight)).sum_eq,
    (h.map (fun e => e.weight)).sum_eq]

/-- Claim C1: on every non-empty estimate list with positive cm_per_pixel
values, `_fuse_estimates` computes exactly the specified fusion — median
across all estimates, strict (0.7 median, 1.3 median) agreement band,
trust-weight-weighted average of the agreeing values labelled with the
highest-weight estimate's method name when at least two agree, and the
single highest-weight estimate verbatim otherwise. -/
theorem fuse_matches_spec (es : List Estimate) (hne : es ≠ [])
    (hpos : ∀ e ∈ es, 0 < e.cm) :
    fuseEstimates es = specFuseEstimates es := by
  have hperm : (List.insertionSort
      (fun a b : Estimate => b.weight ≤ a.weight) es).Perm es :=
    List.perm_insertionSort _ es
  have hneS : List.insertionSort
      (fun a b : Estimate => b.weight ≤ a.weight) es ≠ [] := by
    intro h0
    have hlen := List.length_insertionSort
      (fun a b : Estimate => b.weight ≤ a.weight) es
    rw [h0] at hlen
    exact hne (List.eq_nil_of_length_eq_zero hlen.symm)
  obtain ⟨p, rest, hps⟩ := List.exists_cons_of_ne_nil hneS
  have hpermC : (p :: rest).Perm es := hps ▸ hperm
  have hhead : p = firstMaxWeight es := by
    have hh := insertionSort_headD es hne ⟨"", 0, 0⟩
    rw [hps] at hh
    simpa using hh
  have hmed : npMedian ((p :: rest).map (fun e => e.cm)) =
      npMedian (es.map (fun e => e.cm)) :=
    npMedian_congr_perm (hpermC.map _)
  have hmedpos : 0 < npMedian (es.map (fun e => e.cm)) := by
    apply npMedian_pos
    · simpa using hne
    · intro x hx
      obtain ⟨e, he, rfl⟩ := List.mem_map.mp hx
      exact hpos e he
  have hfe : (p :: rest).filter
      (agreesRatio (npMedian (es.map (fun e => e.cm)))) =
      (p :: rest).filter
        (agreesBand (npMedian (es.map (fun e => e.cm)))) :=
    List.filter_congr (fun e _ => agrees_eq _ hmedpos e)
  have hfperm : ((p :: rest).filter
      (agreesBand (npMedian (es.map (fun e => e.cm))))).Perm
      (es.filter (agreesBand (npMedian (es.map (fun e => e.cm))))) :=
    hpermC.filter _
  simp only [fuseEstimates, specFuseEstimates]
  rw [hps]
  simp only [List.headD_cons]
  rw [hmed, hfe, hfperm.length_eq, weightedAverageCm_perm hfperm, ← hhead]
  by_cases hlen2 : 2 ≤ es.length
  · rw [if_pos (by rw [hpermC.length_eq]; exact hlen2)]
  · have h1 : ¬ 2 ≤ (p :: rest).length := by
      rw [hpermC.length_eq]
      exact hlen2
    have h2 : ¬ 2 ≤ (es.filter
        (agreesBand (npMedian (es.map (fun e => e.cm))))).length := by
      have := List.length_filter_le
        (agreesBand (npMedian (es.map (fun e => e.cm)))) es
      omega
    rw [if_neg h1, if_neg h2]

/-- Witness for C1 on a concrete three-estimate list: two values agree
with the median, the fused value is their weighted average, labelled with
the highest-weight method. -/
theorem fuse_matches_spec_witness :
    ([⟨"pose_height", 1, 92 / 100⟩, ⟨"stick_flow", 11 / 10, 85 / 100⟩,
      ⟨"stick_edge", 5, 60 / 100⟩] : List Estimate) ≠ [] ∧
    fuseEstimates
      [⟨"pose_height", 1, 92 / 100⟩, ⟨"stick_flow", 11 / 10, 85 / 100⟩,
       ⟨"stick_edge", 5, 60 / 100⟩] =
    specFuseEstimates
      [⟨"pose_height", 1, 92 / 100⟩, ⟨"stick_flow", 11 / 10, 85 / 100⟩,
       ⟨"stick_edge", 5, 60 / 100⟩] :=
  ⟨by decide,
   fuse_matches_spec
     [⟨"pose_height", 1, 92 / 100⟩, ⟨"stick_flow", 11 / 10, 85 / 100⟩,
      ⟨"stick_edge", 5, 60 / 100⟩] (by decide) (by decide)⟩

/-- Rescale the cm_per_pixel of an estimate, keeping method and weight. -/
def scaleCm (t : ℚ) (e : Estimate) : Estimate := ⟨e.method, t * e.cm, e.weight⟩

/-- Rescaling cm values commutes with the weight sort. -/
lemma insertionSort_scaleCm (t : ℚ) (es : List Estimate) :
    List.insertionSort (fun a b : Estimate => b.weight ≤ a.weight)
      (es.map (scaleCm t)) =
    (List.insertionSort (fun a b : Estimate => b.weight ≤ a.weight) es).map
      (scaleCm t) :=
  (List.map_insertionSort (fun a b : Estimate => b.weight ≤ a.weight)
    (fun a b : Estimate => b.weight ≤ a.weight) (scaleCm t) es
    (fun _ _ _ _ => Iff.rfl)).symm

/-- Multiplying by a positive constant commutes with the ascending sort. -/
lemma insertionSort_mul_left (t : ℚ) (ht : 0 < t) (xs : List ℚ) :
    List.insertionSort (· ≤ ·) (xs.map (fun x => t * x)) =
      (List.insertionSort (· ≤ ·) xs).map (fun x => t * x) :=
  (List.map_insertionSort (· ≤ ·) (· ≤ ·) (fun x => t * x) xs
    (fun _ _ _ _ => (mul_le_mul_left ht).symm)).symm

/-- `getD` through a scaling map, in bounds. -/
lemma getD_map_mul (t : ℚ) (l : List ℚ) (i : ℕ) (h : i < l.length) :
    (l.map (fun x => t * x)).getD i 0 = t * l.getD i 0 := by
  rw [List.getD_eq_getElem _ _ (by simpa using h), List.getD_eq_getElem _ _ h,
    List.getElem_map]

/-- The median scales with a positive constant. -/
lemma npMedian_mul_left (t : ℚ) (ht : 0 < t) (xs : List ℚ) :
    npMedian (xs.map (fun x => t * x)) = t * npMedian xs := by
  simp only [npMedian]
  rw [insertionSort_mul_left t ht, List.length_map]
  by_cases h0 : (List.insertionSort (· ≤ ·) xs).length = 0
  · have hnil : List.insertionSort (· ≤ ·) xs = [] :=
      List.eq_nil_of_length_eq_zero h0
    rw [hnil]
    norm_num
  · split_ifs with hodd
    · rw [getD_map_mul t _ _ (by omega)]
    · rw [getD_map_mul t _ _ (by omega), getD_map_mul t _ _ (by omega)]
      ring

/-- The weighted average scales with the cm values. -/
lemma weightedAverageCm_scale (t : ℚ) (l : List Estimate) :
    weightedAverageCm (l.map (scaleCm t)) = t * weightedAverageCm l := by
  unfold weightedAverageCm
  rw [List.map_map, List.map_map]
  have h1 : ((fun e : Estimate => e.cm * e.weight) ∘ scaleCm t) =
      fun e : Estimate => t * (e.cm * e.weight) := by
    funext e
    simp only [Function.comp_apply, scaleCm]
    ring
  have h2 : ((fun e : Estimate => e.weight) ∘ scaleCm t) =
      fun e : Estimate => e.weight := rfl
  rw [h1, h2, List.sum_map_mul_left, mul_div_assoc]

/-- The agreement test is invariant under rescaling both the value and
the median by the same nonzero factor. -/
lemma agreesRatio_scale (t med : ℚ) (ht : t ≠ 0) (e : Estimate) :
    agreesRatio (t * med) (scaleCm t e) = agreesRatio med e := by
  unfold agreesRatio scaleCm
  rw [mul_div_mul_left e.cm med ht]

/-- Rescaling every estimate cm by a positive factor rescales the fused
cm_per_pixel by the same factor and keeps the method name. -/
lemma fuseEstimates_scale (t : ℚ) (ht : 0 < t) (es : List Estimate) :
    fuseEstimates (es.map (scaleCm t)) =
      (t * (fuseEstimates es).1, (fuseEstimates es).2) := by
  simp only [fuseEstimates]
  rw [insertionSort_scaleCm]
  cases hs : List.insertionSort (fun a b : Estimate => b.weight ≤ a.weight) es with
  | nil =>
      simp [scaleCm]
  | cons p l =>
      simp only [List.map_cons, List.headD_cons, List.length_cons,
        List.length_map]
      have heq : ((scaleCm t p).cm ::
          List.map (fun e => e.cm) (List.map (scaleCm t) l) : List ℚ) =
          ((p.cm :: List.map (fun e => e.cm) l).map (fun x => t * x)) := by
        simp only [List.map_cons, List.map_map]
        rfl
      rw [heq, npMedian_mul_left t ht]
      have hfilt : List.filter
          (agreesRatio (t * npMedian (p.cm :: List.map (fun e => e.cm) l)))
          (scaleCm t p :: List.map (scaleCm t) l) =
          (List.filter
            (agreesRatio (npMedian (p.cm :: List.map (fun e => e.cm) l)))
            (p :: l)).map (scaleCm t) := by
        rw [show (scaleCm t p :: List.map (scaleCm t) l : List Estimate) =
            (p :: l).map (scaleCm t) from rfl, List.filter_map]
        congr 1
        apply List.filter_congr
        intro e _
        exact agreesRatio_scale t _ (ne_of_gt ht) e
      rw [hfilt, List.length_map, weightedAverageCm_scale]
      split_ifs with h1 h2
      · rfl
      · rfl
      · rfl

/-- Mapping preserves emptiness. -/
lemma isEmpty_map {α β : Type} (f : α → β) (l : List α) :
    (l.map f).isEmpty = l.isEmpty := by
  cases l <;> rfl

/-- With no body measurement and no silhouette, every calibration
estimate is stick-length based, so changing the stick reference rescales
the whole estimate list. -/
lemma calibrationEstimates_scale (sqrtFn : ℚ → ℚ) (det : DetectorOutputs)
    (poseData : List (Option PoseRec)) (c c2 : ℚ) (hc2 : c2 ≠ 0)
    (hbody : measureBodyFromPose sqrtFn poseData = ⟨none, none, none⟩)
    (hplayer : det.playerPx = none) :
    calibrationEstimates sqrtFn c det poseData =
      (calibrationEstimates sqrtFn c2 det poseData).map (scaleCm (c / c2)) := by
  have hstick : ∀ (name : String) (w : ℚ) (o : Option ℚ),
      (if optTruthy o then ([⟨name, c / o.getD 0, w⟩] : List Estimate) else []) =
        (if optTruthy o then ([⟨name, c2 / o.getD 0, w⟩] : List Estimate)
         else []).map (scaleCm (c / c2)) := by
    intro name w o
    split_ifs with h
    · simp only [List.map_cons, List.map_nil, scaleCm]
      rw [div_mul_div_comm, mul_comm c c2, mul_div_mul_left _ _ hc2]
    · rfl
  have hnone : optTruthy none = false := rfl
  simp only [calibrationEstimates, hbody, hplayer, hnone,
    Bool.false_eq_true, if_false, ite_self, List.append_nil, List.nil_append]
  rw [hstick "stick_flow" (85 / 100) det.stickFlowPx,
    hstick "stick_ridge" (70 / 100) det.stickRidgePx,
    hstick "stick_edge" (60 / 100) det.stickEdgePx,
    List.map_append, List.map_append]

/-- `_auto_calibrate` with an explicit positive reference rescales the
no-reference result by `r / 155` and keeps the method name, provided no
pose-derived or silhouette estimate exists. -/
lemma autoCalibrate_scale (sqrtFn : ℚ → ℚ) (frameW : ℚ)
    (det : DetectorOutputs) (poseData : List (Option PoseRec)) (r : ℚ)
    (hr : 0 < r)
    (hbody : measureBodyFromPose sqrtFn poseData = ⟨none, none, none⟩)
    (hplayer : det.playerPx = none) :
    autoCalibrate sqrtFn frameW det (some r) poseData =
      ((r / STICK_LENGTH_CM) *
        (autoCalibrate sqrtFn frameW det none poseData).1,
       (autoCalibrate sqrtFn frameW det none poseData).2) := by
  have hr0 : r ≠ 0 := ne_of_gt hr
  have h155 : STICK_LENGTH_CM ≠ 0 := by norm_num [STICK_LENGTH_CM]
  simp only [autoCalibrate]
  have hpy : pyOrQ (some r) STICK_LENGTH_CM = r := by simp [pyOrQ, hr0]
  have hpyn : pyOrQ none STICK_LENGTH_CM = STICK_LENGTH_CM := rfl
  rw [hpy, hpyn, calibrationEstimates_scale sqrtFn det poseData r
    STICK_LENGTH_CM h155 hbody hplayer]
  rw [isEmpty_map]
  by_cases he : (calibrationEstimates sqrtFn STICK_LENGTH_CM det poseData).isEmpty
  · rw [if_pos he, if_pos he]
    have : r / (frameW * STICK_WIDTH_RATIO_FALLBACK) =
        (r / STICK_LENGTH_CM) *
          (STICK_LENGTH_CM / (frameW * STICK_WIDTH_RATIO_FALLBACK)) := by
      rw [div_mul_div_comm, mul_comm r STICK_LENGTH_CM,
        mul_div_mul_left _ _ h155]
    rw [this]
  · rw [if_neg he, if_neg he, fuseEstimates_scale _ (div_pos hr
      (by norm_num [STICK_LENGTH_CM]))]

/-- Blended speed is linear in the calibration factor. -/
lemma speedCmPerSec_mul (t pk fps cm : ℚ) (ws : Option ℚ) :
    speedCmPerSec pk fps (t * cm) ws = t * speedCmPerSec pk fps cm ws := by
  cases ws <;> simp only [speedCmPerSec] <;> ring

set_option maxRecDepth 100000 in
set_option maxHeartbeats 1000000 in
/-- Counterexample to claim C8: on a run whose only calibration estimate
is pose-derived (player height), supplying an explicit reference length
of 310 (twice the 155 default) leaves the reported speed completely
unchanged at 4.3 km/h — the claimed linear rescaling by 310/155 = 2 does
not happen, because pose-derived estimates do not read the reference
length. -/
theorem reference_rescale_cex :
    (analyze sampleSqrt sampleFlow sampleDet sampleFrames 100 480 30
        samplePoseRaw (some 310)).toOption.map (fun r => r.speedKmh) =
      some (43 / 10) ∧
    (analyze sampleSqrt sampleFlow sampleDet sampleFrames 100 480 30
        samplePoseRaw none).toOption.map (fun r => r.speedKmh) =
      some (43 / 10) ∧
    (43 : ℚ) / 10 ≠ 0 ∧
    ¬ ((43 : ℚ) / 10 = (310 / STICK_LENGTH_CM) * (43 / 10)) :=
  ⟨by decide, by decide, by decide, by decide⟩

/-- Claim C8 (amended): supplying an explicit positive reference length r
rescales the pre-rounding speed of the run by r/155 relative to the
default-constant run — provided every calibration estimate is stick-based
(no pose-derived body measurement exists and the silhouette detector
returns nothing); when a pose-derived estimate is present the reported
speed need not rescale at all (see the counterexample). -/
theorem reference_rescales_stick_only {A : Type} [Inhabited A]
    (sqrtFn : ℚ → ℚ) (flowFn : A → A → ℚ) (det : DetectorOutputs)
    (grayFrames : List A) (frameW fps : ℚ) (poseRaw : List (Option PoseRec))
    (r : ℚ) (hr : 0 < r)
    (hbody : measureBodyFromPose sqrtFn (forwardFill poseRaw) =
      ⟨none, none, none⟩)
    (hplayer : det.playerPx = none) :
    analyzeSpeedCmPerSec sqrtFn flowFn det grayFrames frameW fps poseRaw
      (some r) =
      (r / STICK_LENGTH_CM) *
        analyzeSpeedCmPerSec sqrtFn flowFn det grayFrames frameW fps poseRaw
          none := by
  simp only [analyzeSpeedCmPerSec]
  rw [autoCalibrate_scale sqrtFn frameW det (forwardFill poseRaw) r hr
    hbody hplayer]
  exact speedCmPerSec_mul _ _ _ _ _

/-- Witness for C8 (amended) at a concrete stick-only configuration. -/
theorem reference_rescales_stick_only_witness :
    0 < (310 : ℚ) ∧
    measureBodyFromPose sampleSqrt (forwardFill []) = ⟨none, none, none⟩ ∧
    sampleDet.playerPx = none ∧
    analyzeSpeedCmPerSec sampleSqrt sampleFlow sampleDet sampleFrames 100 30
      [] (some 310) =
      ((310 : ℚ) / STICK_LENGTH_CM) *
        analyzeSpeedCmPerSec sampleSqrt sampleFlow sampleDet sampleFrames 100
          30 [] none :=
  ⟨by decide, by decide, rfl,
   reference_rescales_stick_only sampleSqrt sampleFlow sampleDet sampleFrames
     100 30 [] 310 (by decide) (by decide) rfl⟩

end SpeedRWeb
